import Mathlib

/-!
Verification of the connection scheduling and execution core of the server:
a shallow embedding of the outbound connection pool
(mongo/executor/connection_pool.cpp), the connection state machine
(mongo/transport/service_state_machine.cpp), the synchronous executor
(mongo/transport/service_executor_synchronous.cpp) and the adaptive
executor (mongo/transport/service_executor_adaptive.cpp), together with
theorems about their behaviour.
-/

namespace MongoCore

/-- Error status of an operation, mirroring mongo::Status: either OK or an
error with a numeric code. -/
inductive Status where
  | ok
  | error (code : Nat)
deriving DecidableEq, Repr

/-- Status.isOK from mongo::Status. -/
def Status.isOK : Status → Bool
  | .ok => true
  | .error _ => false

/-- Numeric value of ErrorCodes::NetworkInterfaceExceededTimeLimit. -/
def networkInterfaceExceededTimeLimit : Nat := 202

/-- ConnectionPool::kConnectionStateUnknown, a Status with code
ErrorCodes::InternalError. -/
def connectionStateUnknown : Status := .error 1

/-- One pooled outbound connection (ConnectionInterface): identity, the
generation it was created under, last-used timestamp, health flag, and the
status recorded by indicateSuccess / indicateFailure / resetToUnknown. -/
structure Conn where
  id : Nat
  gen : Nat
  lastUsed : Int
  healthy : Bool
  status : Status
deriving DecidableEq, Repr

/-- ConnectionPool::Options: pool sizing and timing knobs. Times are in
milliseconds, as Int, matching Milliseconds/Date_t arithmetic. -/
structure Options where
  minConnections : Nat
  maxConnections : Nat
  maxConnecting : Nat
  refreshTimeout : Int
  refreshRequirement : Int
  hostTimeout : Int
deriving DecidableEq, Repr

/-- A pending request against a destination: SpecificPool::Request is a
pair of expiration Date_t and callback; the callback is identified by rid. -/
structure Request where
  deadline : Int
  rid : Nat
deriving DecidableEq, Repr

/-- State of ConnectionPool::SpecificPool: the four ownership pools, the
pending request priority queue (held as a list; the priority order is
imposed by popEarliest), the generation counter, the created counter, the
two re-entrancy guards, and the shutdown flag (State::kInShutdown). The
readyPool list is most-recently-used first, matching the LRUCache whose
begin() is the MRU element. nextId supplies fresh connection identities. -/
structure PoolState where
  readyPool : List Conn
  processingPool : List Conn
  droppedProcessingPool : List Conn
  checkedOutPool : List Conn
  requests : List Request
  generation : Nat
  created : Nat
  nextId : Nat
  inFulfillRequests : Bool
  inSpawnConnections : Bool
  inShutdown : Bool
deriving DecidableEq, Repr

/-- Externally visible events of one pool operation: a request callback
invoked with a connection (fulfillRequests), a request callback invoked
with a failure status (processFailure), a connection destroyed, and an
unhealthy ready connection dropped by fulfillRequests. -/
inductive PoolEvent where
  | handed (r : Request) (c : Conn)
  | requestFailed (r : Request) (s : Status)
  | connDiscarded (c : Conn)
  | droppedUnhealthy (c : Conn)
deriving DecidableEq, Repr

/-- The target lambda in SpecificPool::spawnConnections:
max(minConnections, min(requests + checkedOut, maxConnections)). -/
def spawnTarget (opts : Options) (st : PoolState) : Nat :=
  max opts.minConnections
    (min (st.requests.length + st.checkedOutPool.length) opts.maxConnections)

/-- The connection object made by factory->makeConnection(hostAndPort,
generation): stamped with the current generation. -/
def freshConn (st : PoolState) : Conn :=
  { id := st.nextId, gen := st.generation, lastUsed := 0, healthy := true,
    status := connectionStateUnknown }

/-- The while loop of SpecificPool::spawnConnections: while
ready + processing + checkedOut < target and processing < maxConnecting,
make a connection, put it in the processing pool and bump created. -/
def spawnLoop (opts : Options) (st : PoolState) : PoolState :=
  if h : st.readyPool.length + st.processingPool.length + st.checkedOutPool.length
        < spawnTarget opts st
      ∧ st.processingPool.length < opts.maxConnecting then
    spawnLoop opts
      { st with
        processingPool := freshConn st :: st.processingPool,
        created := st.created + 1,
        nextId := st.nextId + 1 }
  else st
termination_by
  spawnTarget opts st
    - (st.readyPool.length + st.processingPool.length + st.checkedOutPool.length)
decreasing_by
  simp only [spawnTarget, List.length_cons] at *
  omega

/-- SpecificPool::spawnConnections: bail out if re-entered via the
inSpawnConnections guard, otherwise run the spawn loop. -/
def spawnConnections (opts : Options) (st : PoolState) : PoolState :=
  if st.inSpawnConnections then st else spawnLoop opts st

theorem spawnLoop_frame (opts : Options) (st : PoolState) :
    (spawnLoop opts st).readyPool = st.readyPool ∧
    (spawnLoop opts st).checkedOutPool = st.checkedOutPool ∧
    (spawnLoop opts st).droppedProcessingPool = st.droppedProcessingPool ∧
    (spawnLoop opts st).requests = st.requests ∧
    (spawnLoop opts st).generation = st.generation ∧
    (spawnLoop opts st).inFulfillRequests = st.inFulfillRequests ∧
    (spawnLoop opts st).inSpawnConnections = st.inSpawnConnections ∧
    (spawnLoop opts st).inShutdown = st.inShutdown := by
  induction st using spawnLoop.induct opts with
  | case1 st h ih =>
    rw [spawnLoop, dif_pos h]
    exact ih
  | case2 st h =>
    rw [spawnLoop, dif_neg h]
    exact ⟨rfl, rfl, rfl, rfl, rfl, rfl, rfl, rfl⟩

theorem spawnConnections_frame (opts : Options) (st : PoolState) :
    (spawnConnections opts st).readyPool = st.readyPool ∧
    (spawnConnections opts st).checkedOutPool = st.checkedOutPool ∧
    (spawnConnections opts st).droppedProcessingPool = st.droppedProcessingPool ∧
    (spawnConnections opts st).requests = st.requests ∧
    (spawnConnections opts st).generation = st.generation ∧
    (spawnConnections opts st).inFulfillRequests = st.inFulfillRequests ∧
    (spawnConnections opts st).inSpawnConnections = st.inSpawnConnections ∧
    (spawnConnections opts st).inShutdown = st.inShutdown := by
  unfold spawnConnections
  split
  · exact ⟨rfl, rfl, rfl, rfl, rfl, rfl, rfl, rfl⟩
  · exact spawnLoop_frame opts st

/-- Core behaviour of the spawn loop: it spawns some number n of
connections one at a time; each lands in the processing pool stamped with
the current generation and bumps created by one; it stops exactly when the
loop condition fails; and every one of the n spawns happened in a state
where the loop condition still held. -/
theorem spawnLoop_spec (opts : Options) (st : PoolState) :
    ∃ n newConns,
      (spawnLoop opts st).processingPool = newConns ++ st.processingPool ∧
      newConns.length = n ∧
      (∀ c ∈ newConns, c.gen = st.generation) ∧
      (spawnLoop opts st).created = st.created + n ∧
      ¬ (st.readyPool.length + (st.processingPool.length + n) + st.checkedOutPool.length
            < spawnTarget opts st
          ∧ st.processingPool.length + n < opts.maxConnecting) ∧
      (∀ k < n,
        st.readyPool.length + (st.processingPool.length + k) + st.checkedOutPool.length
            < spawnTarget opts st
          ∧ st.processingPool.length + k < opts.maxConnecting) := by
  induction st using spawnLoop.induct opts with
  | case1 st h ih =>
    rw [spawnLoop, dif_pos h]
    obtain ⟨n, newConns, hproc, hlen, hgen, hcre, hstop, hrun⟩ := ih
    refine ⟨n + 1, newConns ++ [freshConn st], ?_, ?_, ?_, ?_, ?_, ?_⟩
    · simpa [List.append_assoc] using hproc
    · simp [hlen]
    · intro c hc
      rcases List.mem_append.mp hc with hc | hc
      · exact hgen c hc
      · simp only [List.mem_singleton] at hc
        subst hc
        rfl
    · simp only [hcre]
      omega
    · have htarget : spawnTarget opts
          { st with
            processingPool := freshConn st :: st.processingPool,
            created := st.created + 1,
            nextId := st.nextId + 1 } = spawnTarget opts st := rfl
      simp only [htarget, List.length_cons] at hstop
      intro hcon
      exact hstop ⟨by omega, by omega⟩
    · intro k hk
      match k with
      | 0 => exact ⟨h.1, h.2⟩
      | Nat.succ j =>
        have htarget : spawnTarget opts
            { st with
              processingPool := freshConn st :: st.processingPool,
              created := st.created + 1,
              nextId := st.nextId + 1 } = spawnTarget opts st := rfl
        have := hrun j (by omega)
        simp only [htarget, List.length_cons] at this
        exact ⟨by omega, by omega⟩
  | case2 st h =>
    rw [spawnLoop, dif_neg h]
    exact ⟨0, [], by simp, rfl, by simp, by simp, by simpa using h, by omega⟩

/-- Extraction from the request priority queue (std::priority_queue with
RequestComparator a.first > b.first, a min-heap on the deadline): top() is
a request with the smallest deadline; pop removes it. popEarliest returns
the leftmost request of minimal deadline together with the rest. -/
def popEarliest : List Request → Option (Request × List Request)
  | [] => none
  | r :: rs =>
    match popEarliest rs with
    | none => some (r, [])
    | some (m, rest) =>
      if r.deadline ≤ m.deadline then some (r, rs) else some (m, r :: rest)

theorem popEarliest_eq_none {rs : List Request} :
    popEarliest rs = none ↔ rs = [] := by
  cases rs with
  | nil => simp [popEarliest]
  | cons r rs =>
    simp only [popEarliest]
    cases h : popEarliest rs with
    | none => simp
    | some p =>
      cases p with
      | mk m rest => by_cases hle : r.deadline ≤ m.deadline <;> simp [hle]

theorem popEarliest_min {rs : List Request} {m : Request} {rest : List Request}
    (h : popEarliest rs = some (m, rest)) :
    ∀ r ∈ rs, m.deadline ≤ r.deadline := by
  induction rs generalizing m rest with
  | nil => simp [popEarliest] at h
  | cons r rs ih =>
    simp only [popEarliest] at h
    cases hrec : popEarliest rs with
    | none =>
      rw [hrec] at h
      have hnil : rs = [] := popEarliest_eq_none.mp hrec
      simp only [Option.some.injEq, Prod.mk.injEq] at h
      subst hnil
      intro x hx
      simp only [List.mem_singleton] at hx
      subst hx
      exact le_of_eq (congrArg Request.deadline h.1.symm)
    | some p =>
      cases p with
      | mk m' rest' =>
        rw [hrec] at h
        by_cases hle : r.deadline ≤ m'.deadline
        · simp only [hle, if_pos, Option.some.injEq, Prod.mk.injEq] at h
          obtain ⟨hm, hrest⟩ := h
          subst hm
          intro x hx
          rcases List.mem_cons.mp hx with hx | hx
          · exact le_of_eq (congrArg Request.deadline hx.symm)
          · exact le_trans hle (ih hrec x hx)
        · simp only [hle, if_neg, if_false, Option.some.injEq, Prod.mk.injEq] at h
          obtain ⟨hm, hrest⟩ := h
          subst hm
          intro x hx
          rcases List.mem_cons.mp hx with hx | hx
          · subst hx
            exact le_of_not_le hle
          · exact ih hrec x hx

theorem popEarliest_perm {rs : List Request} {m : Request} {rest : List Request}
    (h : popEarliest rs = some (m, rest)) : List.Perm rs (m :: rest) := by
  induction rs generalizing m rest with
  | nil => simp [popEarliest] at h
  | cons r rs ih =>
    simp only [popEarliest] at h
    cases hrec : popEarliest rs with
    | none =>
      rw [hrec] at h
      have hnil : rs = [] := popEarliest_eq_none.mp hrec
      simp only [Option.some.injEq, Prod.mk.injEq] at h
      subst hnil
      rw [← h.1, ← h.2]
    | some p =>
      cases p with
      | mk m' rest' =>
        rw [hrec] at h
        by_cases hle : r.deadline ≤ m'.deadline
        · simp only [hle, if_pos, Option.some.injEq, Prod.mk.injEq] at h
          rw [← h.1, ← h.2]
        · simp only [hle, if_neg, if_false, Option.some.injEq, Prod.mk.injEq] at h
          obtain ⟨hm, hrest⟩ := h
          subst hm
          subst hrest
          exact (List.Perm.cons r (ih hrec)).trans (List.Perm.swap m' r rest')

theorem popEarliest_length {rs : List Request} {m : Request} {rest : List Request}
    (h : popEarliest rs = some (m, rest)) : rest.length + 1 = rs.length := by
  have := (popEarliest_perm h).length_eq
  simp only [List.length_cons] at this
  omega

/-- The draining loop at the end of SpecificPool::processFailure: pop each
pending request in priority order and invoke its callback with the failing
status. -/
def drainRequests (rs : List Request) (s : Status) : List PoolEvent :=
  match h : popEarliest rs with
  | none => []
  | some (m, rest) => .requestFailed m s :: drainRequests rest s
termination_by rs.length
decreasing_by
  have := popEarliest_length h
  omega

theorem drainRequests_nil (s : Status) : drainRequests [] s = [] := by
  rw [drainRequests]
  simp [popEarliest]

theorem drainRequests_cons {rs : List Request} {m : Request} {rest : List Request}
    (s : Status) (h : popEarliest rs = some (m, rest)) :
    drainRequests rs s = .requestFailed m s :: drainRequests rest s := by
  rw [drainRequests]
  split
  · next heq =>
    rw [h] at heq
    exact Option.noConfusion heq
  · next m' rest' heq =>
    rw [h] at heq
    injection heq with heq
    injection heq with h1 h2
    subst h1
    subst h2
    rfl

theorem drainRequests_perm (rs : List Request) (s : Status) :
    List.Perm (drainRequests rs s) (rs.map (fun r => PoolEvent.requestFailed r s)) := by
  induction rs, s using drainRequests.induct with
  | case1 rs s hpop =>
    have hnil : rs = [] := popEarliest_eq_none.mp hpop
    subst hnil
    simp [drainRequests_nil]
  | case2 rs s m rest hpop ih =>
    rw [drainRequests_cons s hpop]
    have hperm : List.Perm rs (m :: rest) := popEarliest_perm hpop
    have hmap := hperm.map (fun r => PoolEvent.requestFailed r s)
    simp only [List.map_cons] at hmap
    exact (List.Perm.cons _ ih).trans hmap.symm

/-- SpecificPool::processFailure: bump the generation, clear the ready
pool, migrate every processing connection to the dropped-processing pool,
move the pending requests out, and invoke every one of their callbacks
with the failing status. -/
def processFailure (s : Status) (st : PoolState) : PoolState × List PoolEvent :=
  ({ st with
      generation := st.generation + 1,
      readyPool := [],
      droppedProcessingPool := st.droppedProcessingPool ++ st.processingPool,
      processingPool := [],
      requests := [] },
   drainRequests st.requests s)

/-- connPtr->resetToUnknown() applied when a connection is checked out and
passed to the user by fulfillRequests. -/
def checkOutConn (c : Conn) : Conn := { c with status := connectionStateUnknown }

/-- The while loop of SpecificPool::fulfillRequests: while requests are
pending, take the MRU ready connection (none: stop); drop it if unhealthy,
spawning replacements if the ready pool just became empty; otherwise pop
the earliest-deadline request, move the connection to the checked-out
pool, reset it to unknown and hand it to the request callback. -/
def fulfillLoop (opts : Options) (st : PoolState) : PoolState × List PoolEvent :=
  match st.requests with
  | [] => (st, [])
  | _ :: _ =>
    match hr : st.readyPool with
    | [] => (st, [])
    | c :: rest =>
      if c.healthy = true then
        match popEarliest st.requests with
        | none => (st, [])
        | some (m, remaining) =>
          let st2 : PoolState :=
            { st with
              readyPool := rest,
              requests := remaining,
              checkedOutPool := checkOutConn c :: st.checkedOutPool }
          let p := fulfillLoop opts st2
          (p.1, .handed m (checkOutConn c) :: p.2)
      else
        let st2 : PoolState :=
          if rest.isEmpty then spawnConnections opts { st with readyPool := rest }
          else { st with readyPool := rest }
        let p := fulfillLoop opts st2
        (p.1, .droppedUnhealthy c :: p.2)
termination_by st.readyPool.length
decreasing_by
  · simp only [hr, List.length_cons]
    omega
  · split
    · have h1 := (spawnConnections_frame opts { st with readyPool := rest }).1
      simp only [h1, hr, List.length_cons]
      omega
    · simp only [hr, List.length_cons]
      omega

/-- SpecificPool::fulfillRequests: bail out if re-entered via the
inFulfillRequests guard, otherwise run the fulfillment loop. -/
def fulfillRequests (opts : Options) (st : PoolState) : PoolState × List PoolEvent :=
  if st.inFulfillRequests then (st, []) else fulfillLoop opts st

theorem fulfillLoop_no_requests {opts : Options} {st : PoolState}
    (h : st.requests = []) : fulfillLoop opts st = (st, []) := by
  rw [fulfillLoop]
  split
  · rfl
  · next q qs heq =>
    rw [h] at heq
    exact List.noConfusion heq

theorem fulfillLoop_no_ready {opts : Options} {st : PoolState}
    (h : st.readyPool = []) : fulfillLoop opts st = (st, []) := by
  rw [fulfillLoop]
  split
  · rfl
  · split
    · rfl
    · next c rest heq =>
      rw [h] at heq
      exact List.noConfusion heq

theorem fulfillLoop_healthy {opts : Options} {st : PoolState} {c : Conn}
    {rest : List Conn} {m : Request} {remaining : List Request}
    (hready : st.readyPool = c :: rest)
    (hpop : popEarliest st.requests = some (m, remaining))
    (hc : c.healthy = true) :
    fulfillLoop opts st =
      ((fulfillLoop opts
          { st with
            readyPool := rest,
            requests := remaining,
            checkedOutPool := checkOutConn c :: st.checkedOutPool }).1,
       .handed m (checkOutConn c) ::
        (fulfillLoop opts
          { st with
            readyPool := rest,
            requests := remaining,
            checkedOutPool := checkOutConn c :: st.checkedOutPool }).2) := by
  have hreq : st.requests ≠ [] := by
    intro hnil
    rw [hnil] at hpop
    simp [popEarliest] at hpop
  rw [fulfillLoop]
  split
  · next hnil => exact absurd hnil hreq
  · split
    · next heq =>
      rw [hready] at heq
      exact List.noConfusion heq
    · next c' rest' heq =>
      rw [hready] at heq
      injection heq with h1 h2
      subst h1
      subst h2
      rw [if_pos hc]
      split
      · next heq2 =>
        rw [hpop] at heq2
        exact Option.noConfusion heq2
      · next m' remaining' heq2 =>
        rw [hpop] at heq2
        injection heq2 with heq2
        injection heq2 with h3 h4
        subst h3
        subst h4
        rfl

theorem fulfillLoop_unhealthy {opts : Options} {st : PoolState} {c : Conn}
    {rest : List Conn}
    (hready : st.readyPool = c :: rest)
    (hreq : st.requests ≠ [])
    (hc : c.healthy = false) :
    fulfillLoop opts st =
      ((fulfillLoop opts
          (if rest.isEmpty then spawnConnections opts { st with readyPool := rest }
           else { st with readyPool := rest })).1,
       .droppedUnhealthy c ::
        (fulfillLoop opts
          (if rest.isEmpty then spawnConnections opts { st with readyPool := rest }
           else { st with readyPool := rest })).2) := by
  rw [fulfillLoop]
  split
  · next hnil => exact absurd hnil hreq
  · split
    · next heq =>
      rw [hready] at heq
      exact List.noConfusion heq
    · next c' rest' heq =>
      rw [hready] at heq
      injection heq with h1 h2
      subst h1
      subst h2
      rw [if_neg (by simp [hc])]

/-- Invariant: every connection in the ready pool carries the current
generation of its pool. -/
def readyGenOK (st : PoolState) : Prop := ∀ c ∈ st.readyPool, c.gen = st.generation

instance (st : PoolState) : Decidable (readyGenOK st) := by
  unfold readyGenOK
  infer_instance

theorem readyGenOK_spawnConnections (opts : Options) (st : PoolState)
    (h : readyGenOK st) : readyGenOK (spawnConnections opts st) := by
  intro c hc
  have hf := spawnConnections_frame opts st
  rw [hf.1] at hc
  rw [hf.2.2.2.2.1]
  exact h c hc

theorem fulfillLoop_frame (opts : Options) (st : PoolState) :
    (fulfillLoop opts st).1.generation = st.generation ∧
    (fulfillLoop opts st).1.droppedProcessingPool = st.droppedProcessingPool ∧
    (fulfillLoop opts st).1.inFulfillRequests = st.inFulfillRequests ∧
    (fulfillLoop opts st).1.inSpawnConnections = st.inSpawnConnections ∧
    (fulfillLoop opts st).1.inShutdown = st.inShutdown := by
  induction st using fulfillLoop.induct opts with
  | case1 st h =>
    rw [fulfillLoop_no_requests h]
    exact ⟨rfl, rfl, rfl, rfl, rfl⟩
  | case2 st r rs hreq hready =>
    rw [fulfillLoop_no_ready hready]
    exact ⟨rfl, rfl, rfl, rfl, rfl⟩
  | case3 st r rs hreq c rest hready hc hpop =>
    have := popEarliest_eq_none.mp hpop
    rw [hreq] at this
    exact List.noConfusion this
  | case4 st r rs hreq c rest hready hc m remaining hpop st2 ih =>
    rw [fulfillLoop_healthy hready hpop hc]
    exact ih
  | case5 st r rs hreq c rest hready hc st2 ih =>
    rw [fulfillLoop_unhealthy hready (by rw [hreq]; exact List.cons_ne_nil r rs)
      (Bool.not_eq_true c.healthy ▸ hc)]
    have hfr :
        ((if rest.isEmpty then spawnConnections opts { st with readyPool := rest }
          else { st with readyPool := rest }) : PoolState).generation = st.generation ∧
        ((if rest.isEmpty then spawnConnections opts { st with readyPool := rest }
          else { st with readyPool := rest }) : PoolState).droppedProcessingPool
            = st.droppedProcessingPool ∧
        ((if rest.isEmpty then spawnConnections opts { st with readyPool := rest }
          else { st with readyPool := rest }) : PoolState).inFulfillRequests
            = st.inFulfillRequests ∧
        ((if rest.isEmpty then spawnConnections opts { st with readyPool := rest }
          else { st with readyPool := rest }) : PoolState).inSpawnConnections
            = st.inSpawnConnections ∧
        ((if rest.isEmpty then spawnConnections opts { st with readyPool := rest }
          else { st with readyPool := rest }) : PoolState).inShutdown = st.inShutdown := by
      split
      · have hf := spawnConnections_frame opts { st with readyPool := rest }
        exact ⟨hf.2.2.2.2.1, hf.2.2.1, hf.2.2.2.2.2.1, hf.2.2.2.2.2.2.1, hf.2.2.2.2.2.2.2⟩
      · exact ⟨rfl, rfl, rfl, rfl, rfl⟩
    obtain ⟨g1, g2, g3, g4, g5⟩ := ih
    exact ⟨g1.trans hfr.1, g2.trans hfr.2.1, g3.trans hfr.2.2.1,
      g4.trans hfr.2.2.2.1, g5.trans hfr.2.2.2.2⟩

theorem fulfillLoop_exit (opts : Options) (st : PoolState) :
    (fulfillLoop opts st).1.requests = [] ∨ (fulfillLoop opts st).1.readyPool = [] := by
  induction st using fulfillLoop.induct opts with
  | case1 st h =>
    rw [fulfillLoop_no_requests h]
    exact .inl h
  | case2 st r rs hreq hready =>
    rw [fulfillLoop_no_ready hready]
    exact .inr hready
  | case3 st r rs hreq c rest hready hc hpop =>
    have := popEarliest_eq_none.mp hpop
    rw [hreq] at this
    exact List.noConfusion this
  | case4 st r rs hreq c rest hready hc m remaining hpop st2 ih =>
    rw [fulfillLoop_healthy hready hpop hc]
    exact ih
  | case5 st r rs hreq c rest hready hc st2 ih =>
    rw [fulfillLoop_unhealthy hready (by rw [hreq]; exact List.cons_ne_nil r rs)
      (Bool.not_eq_true c.healthy ▸ hc)]
    exact ih

theorem fulfillLoop_inv (opts : Options) (st : PoolState) :
    readyGenOK st →
    readyGenOK (fulfillLoop opts st).1 ∧
    ∀ m c, PoolEvent.handed m c ∈ (fulfillLoop opts st).2 → c.gen = st.generation := by
  induction st using fulfillLoop.induct opts with
  | case1 st h =>
    intro hInv
    rw [fulfillLoop_no_requests h]
    refine ⟨hInv, ?_⟩
    intro m c hc
    simp at hc
  | case2 st r rs hreq hready =>
    intro hInv
    rw [fulfillLoop_no_ready hready]
    refine ⟨hInv, ?_⟩
    intro m c hc
    simp at hc
  | case3 st r rs hreq c rest hready hc hpop =>
    intro hInv
    have := popEarliest_eq_none.mp hpop
    rw [hreq] at this
    exact List.noConfusion this
  | case4 st r rs hreq c rest hready hc m remaining hpop st2 ih =>
    intro hInv
    rw [fulfillLoop_healthy hready hpop hc]
    have hInv2 : readyGenOK
        { st with
          readyPool := rest,
          requests := remaining,
          checkedOutPool := checkOutConn c :: st.checkedOutPool } := by
      intro x hx
      exact hInv x (by rw [hready]; exact List.mem_cons_of_mem _ hx)
    obtain ⟨h1, h2⟩ := ih hInv2
    refine ⟨h1, ?_⟩
    intro m' c' hmem
    simp only [List.mem_cons] at hmem
    rcases hmem with hmem | hmem
    · injection hmem with hm1 hm2
      rw [hm2]
      exact hInv c (by rw [hready]; exact List.mem_cons_self c rest)
    · exact h2 m' c' hmem
  | case5 st r rs hreq c rest hready hc st2 ih =>
    intro hInv
    rw [fulfillLoop_unhealthy hready (by rw [hreq]; exact List.cons_ne_nil r rs)
      (Bool.not_eq_true c.healthy ▸ hc)]
    have hInv1 : readyGenOK ({ st with readyPool := rest } : PoolState) := by
      intro x hx
      exact hInv x (by rw [hready]; exact List.mem_cons_of_mem _ hx)
    have hInv2 : readyGenOK
        ((if rest.isEmpty then spawnConnections opts { st with readyPool := rest }
          else { st with readyPool := rest }) : PoolState) := by
      split
      · exact readyGenOK_spawnConnections opts _ hInv1
      · exact hInv1
    have hgen :
        ((if rest.isEmpty then spawnConnections opts { st with readyPool := rest }
          else { st with readyPool := rest }) : PoolState).generation = st.generation := by
      split
      · exact (spawnConnections_frame opts { st with readyPool := rest }).2.2.2.2.1
      · rfl
    obtain ⟨h1, h2⟩ := ih hInv2
    refine ⟨h1, ?_⟩
    intro m' c' hmem
    simp only [List.mem_cons] at hmem
    rcases hmem with hmem | hmem
    · exact PoolEvent.noConfusion hmem
    · exact (h2 m' c' hmem).trans hgen

/-- The timeout clamp at the head of SpecificPool::getConnection: a timeout
below zero or above refreshTimeout is replaced by refreshTimeout. -/
def clampTimeout (opts : Options) (timeout : Int) : Int :=
  if timeout < 0 ∨ opts.refreshTimeout < timeout then opts.refreshTimeout else timeout

/-- SpecificPool::getConnection: clamp the timeout, compute the expiration
as now + timeout, push the (expiration, callback) request, then run
spawnConnections and fulfillRequests. -/
def getConnection (opts : Options) (now timeout : Int) (rid : Nat)
    (st : PoolState) : PoolState × List PoolEvent :=
  fulfillRequests opts
    (spawnConnections opts
      { st with
        requests := { deadline := now + clampTimeout opts timeout, rid := rid }
          :: st.requests })

/-- SpecificPool::addToReady: insert the connection at the MRU end of the
ready pool and run fulfillRequests. (The refresh timer it also arms is
modeled as the separate readyConnTimeout operation.) -/
def addToReady (opts : Options) (st : PoolState) (c : Conn) :
    PoolState × List PoolEvent :=
  fulfillRequests opts { st with readyPool := c :: st.readyPool }

/-- SpecificPool::takeFromPool: find the connection with the given identity
and remove it, returning it alongside the remaining pool. The maps are
keyed by connection pointer; identity is modeled by Conn.id. -/
def takeFromPoolById : List Conn → Nat → Option (Conn × List Conn)
  | [], _ => none
  | c :: rest, cid =>
    if c.id = cid then some (c, rest)
    else
      match takeFromPoolById rest cid with
      | none => none
      | some (f, rest') => some (f, c :: rest')

/-- SpecificPool::returnConnection: take the connection out of the
checked-out pool; drop it if its generation is stale or its status is not
OK; if its refresh deadline has passed, drop it when the pool already
meets minConnections, otherwise move it to processing and start a refresh
(whose completion is the separate refreshCallback operation); otherwise
put it straight back in the ready pool. -/
def returnConnection (opts : Options) (now : Int) (cid : Nat)
    (st : PoolState) : PoolState × List PoolEvent :=
  match takeFromPoolById st.checkedOutPool cid with
  | none => (st, [])
  | some (conn, remaining) =>
    let st0 : PoolState := { st with checkedOutPool := remaining }
    if conn.gen ≠ st.generation then (st0, [.connDiscarded conn])
    else if conn.status.isOK = false then (st0, [.connDiscarded conn])
    else if conn.lastUsed + opts.refreshRequirement ≤ now then
      if opts.minConnections ≤
          st0.readyPool.length + st0.processingPool.length + st0.checkedOutPool.length then
        (st0, [.connDiscarded conn])
      else
        ({ st0 with processingPool := conn :: st0.processingPool }, [])
    else
      addToReady opts st0 conn

/-- SpecificPool::takeFromProcessingPool: the connection is either in the
processing pool or in the dropped-processing pool. -/
def takeFromProcessingPool (st : PoolState) (cid : Nat) :
    Option (Conn × PoolState) :=
  match takeFromPoolById st.processingPool cid with
  | some (c, rest) => some (c, { st with processingPool := rest })
  | none =>
    match takeFromPoolById st.droppedProcessingPool cid with
    | some (c, rest) => some (c, { st with droppedProcessingPool := rest })
    | none => none

/-- The refresh completion callback inside SpecificPool::returnConnection:
take the connection from the processing pools; let a stale generation
lapse (and spawn); do nothing further in shutdown; on success put it back
in the ready pool and spawn; on a time-limit-exceeded error spawn a
replacement instead of failing; on any other error cascade the failure. -/
def refreshCallback (opts : Options) (cid : Nat) (status : Status)
    (st : PoolState) : PoolState × List PoolEvent :=
  match takeFromProcessingPool st cid with
  | none => (st, [])
  | some (conn, st0) =>
    if conn.gen ≠ st0.generation then
      (spawnConnections opts st0, [.connDiscarded conn])
    else if st0.inShutdown then (st0, [.connDiscarded conn])
    else if status.isOK then
      let p := addToReady opts st0 conn
      (spawnConnections opts p.1, p.2)
    else if status = .error networkInterfaceExceededTimeLimit then
      (spawnConnections opts st0, [.connDiscarded conn])
    else
      let p := processFailure status st0
      (p.1, .connDiscarded conn :: p.2)

/-- The setup completion callback inside SpecificPool::spawnConnections:
take the connection from the processing pools; let a stale generation
lapse (and spawn); on success put it in the ready pool and spawn; on a
time-limit-exceeded error restart the connect; otherwise cascade the
failure. -/
def setupCallback (opts : Options) (cid : Nat) (status : Status)
    (st : PoolState) : PoolState × List PoolEvent :=
  match takeFromProcessingPool st cid with
  | none => (st, [])
  | some (conn, st0) =>
    if conn.gen ≠ st0.generation then
      (spawnConnections opts st0, [.connDiscarded conn])
    else if status.isOK then
      let p := addToReady opts st0 conn
      (spawnConnections opts p.1, p.2)
    else if status = .error networkInterfaceExceededTimeLimit then
      (spawnConnections opts st0, [.connDiscarded conn])
    else
      let p := processFailure status st0
      (p.1, .connDiscarded conn :: p.2)

/-- Conn after connPtr->indicateSuccess(). -/
def indicateSuccess (c : Conn) : Conn := { c with status := .ok }

/-- The refreshRequirement timer armed by addToReady: if the connection is
still in the ready pool and the pool is not shutting down, check it out,
mark it successful and return it (which kicks off the refresh logic in
returnConnection). -/
def readyConnTimeout (opts : Options) (now : Int) (cid : Nat)
    (st : PoolState) : PoolState × List PoolEvent :=
  match takeFromPoolById st.readyPool cid with
  | none => (st, [])
  | some (conn, rest) =>
    if st.inShutdown then ({ st with readyPool := rest }, [.connDiscarded conn])
    else
      returnConnection opts now cid
        { st with
          readyPool := rest,
          checkedOutPool := indicateSuccess conn :: st.checkedOutPool }

/-- The entry points of the pool for one destination, as invoked by
ConnectionPool::get, ConnectionPool::returnConnection,
ConnectionPool::dropConnections and the asynchronous setup / refresh /
timer completions. -/
inductive PoolOp where
  | get (now timeout : Int) (rid : Nat)
  | ret (now : Int) (cid : Nat)
  | refreshDone (cid : Nat) (s : Status)
  | setupDone (cid : Nat) (s : Status)
  | readyTimeout (now : Int) (cid : Nat)
  | dropConns (s : Status)
deriving DecidableEq, Repr

/-- Dispatch one pool entry point. -/
def applyOp (opts : Options) (op : PoolOp) (st : PoolState) :
    PoolState × List PoolEvent :=
  match op with
  | .get now timeout rid => getConnection opts now timeout rid st
  | .ret now cid => returnConnection opts now cid st
  | .refreshDone cid s => refreshCallback opts cid s st
  | .setupDone cid s => setupCallback opts cid s st
  | .readyTimeout now cid => readyConnTimeout opts now cid st
  | .dropConns s => processFailure s st

theorem takeFromPoolById_subset {pool : List Conn} {cid : Nat} {c : Conn}
    {rest : List Conn} (h : takeFromPoolById pool cid = some (c, rest)) :
    ∀ x ∈ rest, x ∈ pool := by
  induction pool generalizing c rest with
  | nil => simp [takeFromPoolById] at h
  | cons d ds ih =>
    simp only [takeFromPoolById] at h
    by_cases hd : d.id = cid
    · simp only [hd, if_pos, if_true, Option.some.injEq, Prod.mk.injEq] at h
      intro x hx
      rw [← h.2] at hx
      exact List.mem_cons_of_mem d hx
    · simp only [hd, if_neg, if_false] at h
      cases hrec : takeFromPoolById ds cid with
      | none => rw [hrec] at h; exact Option.noConfusion h
      | some p =>
        obtain ⟨f, rest'⟩ := p
        rw [hrec] at h
        simp only [Option.some.injEq, Prod.mk.injEq] at h
        intro x hx
        rw [← h.2] at hx
        rcases List.mem_cons.mp hx with hx | hx
        · rw [hx]; exact List.mem_cons_self d ds
        · exact List.mem_cons_of_mem d (ih hrec x hx)

theorem takeFromPoolById_mem {pool : List Conn} {cid : Nat} {c : Conn}
    {rest : List Conn} (h : takeFromPoolById pool cid = some (c, rest)) :
    c ∈ pool := by
  induction pool generalizing c rest with
  | nil => simp [takeFromPoolById] at h
  | cons d ds ih =>
    simp only [takeFromPoolById] at h
    by_cases hd : d.id = cid
    · simp only [hd, if_pos, if_true, Option.some.injEq, Prod.mk.injEq] at h
      rw [← h.1]
      exact List.mem_cons_self d ds
    · simp only [hd, if_neg, if_false] at h
      cases hrec : takeFromPoolById ds cid with
      | none => rw [hrec] at h; exact Option.noConfusion h
      | some p =>
        obtain ⟨f, rest'⟩ := p
        rw [hrec] at h
        simp only [Option.some.injEq, Prod.mk.injEq] at h
        rw [← h.1]
        exact List.mem_cons_of_mem d (ih hrec)

theorem takeFromProcessingPool_frame {st : PoolState} {cid : Nat} {conn : Conn}
    {st0 : PoolState} (h : takeFromProcessingPool st cid = some (conn, st0)) :
    st0.readyPool = st.readyPool ∧ st0.checkedOutPool = st.checkedOutPool ∧
    st0.requests = st.requests ∧ st0.generation = st.generation ∧
    st0.inFulfillRequests = st.inFulfillRequests ∧
    st0.inSpawnConnections = st.inSpawnConnections ∧
    st0.inShutdown = st.inShutdown := by
  unfold takeFromProcessingPool at h
  cases h1 : takeFromPoolById st.processingPool cid with
  | some p =>
    obtain ⟨c, rest⟩ := p
    rw [h1] at h
    simp only [Option.some.injEq, Prod.mk.injEq] at h
    rw [← h.2]
    exact ⟨rfl, rfl, rfl, rfl, rfl, rfl, rfl⟩
  | none =>
    rw [h1] at h
    cases h2 : takeFromPoolById st.droppedProcessingPool cid with
    | none => rw [h2] at h; exact Option.noConfusion h
    | some p =>
      obtain ⟨c, rest⟩ := p
      rw [h2] at h
      simp only [Option.some.injEq, Prod.mk.injEq] at h
      rw [← h.2]
      exact ⟨rfl, rfl, rfl, rfl, rfl, rfl, rfl⟩

theorem drainRequests_events (rs : List Request) (s : Status) :
    ∀ ev ∈ drainRequests rs s, ∃ r, ev = PoolEvent.requestFailed r s := by
  intro ev hev
  have hperm := drainRequests_perm rs s
  have : ev ∈ rs.map (fun r => PoolEvent.requestFailed r s) := hperm.mem_iff.mp hev
  obtain ⟨r, _, hr⟩ := List.mem_map.mp this
  exact ⟨r, hr.symm⟩

theorem fulfillRequests_inv (opts : Options) (st : PoolState)
    (hInv : readyGenOK st) :
    readyGenOK (fulfillRequests opts st).1 ∧
    (fulfillRequests opts st).1.generation = st.generation ∧
    ∀ m x, PoolEvent.handed m x ∈ (fulfillRequests opts st).2 →
      x.gen = st.generation := by
  unfold fulfillRequests
  split
  · exact ⟨hInv, rfl, by intro m x hx; simp at hx⟩
  · obtain ⟨h1, h2⟩ := fulfillLoop_inv opts st hInv
    exact ⟨h1, (fulfillLoop_frame opts st).1, h2⟩

theorem addToReady_inv (opts : Options) (st : PoolState) (c : Conn)
    (hc : c.gen = st.generation) (hInv : readyGenOK st) :
    readyGenOK (addToReady opts st c).1 ∧
    (addToReady opts st c).1.generation = st.generation ∧
    ∀ m x, PoolEvent.handed m x ∈ (addToReady opts st c).2 →
      x.gen = st.generation := by
  unfold addToReady
  have hInv2 : readyGenOK ({ st with readyPool := c :: st.readyPool } : PoolState) := by
    intro x hx
    rcases List.mem_cons.mp hx with hx | hx
    · rw [hx]; exact hc
    · exact hInv x hx
  exact fulfillRequests_inv opts _ hInv2

theorem returnConnection_inv (opts : Options) (now : Int) (cid : Nat)
    (st : PoolState) (hInv : readyGenOK st) :
    readyGenOK (returnConnection opts now cid st).1 ∧
    (returnConnection opts now cid st).1.generation = st.generation ∧
    ∀ m x, PoolEvent.handed m x ∈ (returnConnection opts now cid st).2 →
      x.gen = st.generation := by
  unfold returnConnection
  cases h : takeFromPoolById st.checkedOutPool cid with
  | none => exact ⟨hInv, rfl, by intro m x hx; simp at hx⟩
  | some p =>
    obtain ⟨conn, remaining⟩ := p
    simp only []
    split_ifs with h1 h2 h3 h4
    · exact ⟨fun x hx => hInv x hx, rfl, by intro m x hx; simp at hx⟩
    · exact ⟨fun x hx => hInv x hx, rfl, by intro m x hx; simp at hx⟩
    · exact ⟨fun x hx => hInv x hx, rfl, by intro m x hx; simp at hx⟩
    · exact ⟨fun x hx => hInv x hx, rfl, by intro m x hx; simp at hx⟩
    · have hgen : conn.gen = st.generation := not_not.mp h1
      exact addToReady_inv opts _ conn hgen (fun x hx => hInv x hx)

theorem refreshCallback_inv (opts : Options) (cid : Nat) (s : Status)
    (st : PoolState) (hInv : readyGenOK st) :
    readyGenOK (refreshCallback opts cid s st).1 ∧
    ∀ m x, PoolEvent.handed m x ∈ (refreshCallback opts cid s st).2 →
      x.gen = st.generation ∧
      (refreshCallback opts cid s st).1.generation = st.generation := by
  unfold refreshCallback
  cases h : takeFromProcessingPool st cid with
  | none => exact ⟨hInv, by intro m x hx; simp at hx⟩
  | some p =>
    obtain ⟨conn, st0⟩ := p
    obtain ⟨f1, f2, f3, f4, f5, f6, f7⟩ := takeFromProcessingPool_frame h
    have hInv0 : readyGenOK st0 := by
      intro x hx
      rw [f1] at hx
      rw [f4]
      exact hInv x hx
    simp only []
    split_ifs with h1 h2 h3 h4
    · refine ⟨readyGenOK_spawnConnections opts st0 hInv0, ?_⟩
      intro m x hx
      simp at hx
    · exact ⟨hInv0, by intro m x hx; simp at hx⟩
    · have hgen : conn.gen = st0.generation := not_not.mp h1
      obtain ⟨g1, g2, g3⟩ := addToReady_inv opts st0 conn hgen hInv0
      have hsf := spawnConnections_frame opts (addToReady opts st0 conn).1
      refine ⟨?_, ?_⟩
      · intro x hx
        rw [hsf.1] at hx
        rw [hsf.2.2.2.2.1]
        exact g1 x hx
      · intro m x hx
        refine ⟨(g3 m x hx).trans f4, ?_⟩
        rw [hsf.2.2.2.2.1, g2]
        exact f4
    · refine ⟨readyGenOK_spawnConnections opts st0 hInv0, ?_⟩
      intro m x hx
      simp at hx
    · refine ⟨?_, ?_⟩
      · intro x hx
        simp only [processFailure] at hx
        simp at hx
      · intro m x hx
        simp only [processFailure] at hx
        rcases List.mem_cons.mp hx with hx | hx
        · exact PoolEvent.noConfusion hx
        · obtain ⟨r, hr⟩ := drainRequests_events st0.requests s _ hx
          exact PoolEvent.noConfusion hr

theorem setupCallback_inv (opts : Options) (cid : Nat) (s : Status)
    (st : PoolState) (hInv : readyGenOK st) :
    readyGenOK (setupCallback opts cid s st).1 ∧
    ∀ m x, PoolEvent.handed m x ∈ (setupCallback opts cid s st).2 →
      x.gen = st.generation ∧
      (setupCallback opts cid s st).1.generation = st.generation := by
  unfold setupCallback
  cases h : takeFromProcessingPool st cid with
  | none => exact ⟨hInv, by intro m x hx; simp at hx⟩
  | some p =>
    obtain ⟨conn, st0⟩ := p
    obtain ⟨f1, f2, f3, f4, f5, f6, f7⟩ := takeFromProcessingPool_frame h
    have hInv0 : readyGenOK st0 := by
      intro x hx
      rw [f1] at hx
      rw [f4]
      exact hInv x hx
    simp only []
    split_ifs with h1 h2 h3
    · refine ⟨readyGenOK_spawnConnections opts st0 hInv0, ?_⟩
      intro m x hx
      simp at hx
    · have hgen : conn.gen = st0.generation := not_not.mp h1
      obtain ⟨g1, g2, g3⟩ := addToReady_inv opts st0 conn hgen hInv0
      have hsf := spawnConnections_frame opts (addToReady opts st0 conn).1
      refine ⟨?_, ?_⟩
      · intro x hx
        rw [hsf.1] at hx
        rw [hsf.2.2.2.2.1]
        exact g1 x hx
      · intro m x hx
        refine ⟨(g3 m x hx).trans f4, ?_⟩
        rw [hsf.2.2.2.2.1, g2]
        exact f4
    · refine ⟨readyGenOK_spawnConnections opts st0 hInv0, ?_⟩
      intro m x hx
      simp at hx
    · refine ⟨?_, ?_⟩
      · intro x hx
        simp only [processFailure] at hx
        simp at hx
      · intro m x hx
        simp only [processFailure] at hx
        rcases List.mem_cons.mp hx with hx | hx
        · exact PoolEvent.noConfusion hx
        · obtain ⟨r, hr⟩ := drainRequests_events st0.requests s _ hx
          exact PoolEvent.noConfusion hr

theorem readyConnTimeout_inv (opts : Options) (now : Int) (cid : Nat)
    (st : PoolState) (hInv : readyGenOK st) :
    readyGenOK (readyConnTimeout opts now cid st).1 ∧
    (readyConnTimeout opts now cid st).1.generation = st.generation ∧
    ∀ m x, PoolEvent.handed m x ∈ (readyConnTimeout opts now cid st).2 →
      x.gen = st.generation := by
  unfold readyConnTimeout
  cases h : takeFromPoolById st.readyPool cid with
  | none => exact ⟨hInv, rfl, by intro m x hx; simp at hx⟩
  | some p =>
    obtain ⟨conn, rest⟩ := p
    have hsub := takeFromPoolById_subset h
    by_cases hs : st.inShutdown
    · simp only [if_pos hs]
      exact ⟨fun x hx => hInv x (hsub x hx), by trivial, by intro m x hx; simp at hx⟩
    · simp only [if_neg hs]
      have hInv2 : readyGenOK
          ({ st with
            readyPool := rest,
            checkedOutPool := indicateSuccess conn :: st.checkedOutPool } : PoolState) := by
        intro x hx
        exact hInv x (hsub x hx)
      obtain ⟨a, b, c⟩ := returnConnection_inv opts now cid
        { st with
          readyPool := rest,
          checkedOutPool := indicateSuccess conn :: st.checkedOutPool } hInv2
      exact ⟨a, b, c⟩

theorem getConnection_inv (opts : Options) (now timeout : Int) (rid : Nat)
    (st : PoolState) (hInv : readyGenOK st) :
    readyGenOK (getConnection opts now timeout rid st).1 ∧
    (getConnection opts now timeout rid st).1.generation = st.generation ∧
    ∀ m x, PoolEvent.handed m x ∈ (getConnection opts now timeout rid st).2 →
      x.gen = st.generation := by
  unfold getConnection
  have hInv1 : readyGenOK
      ({ st with
        requests := { deadline := now + clampTimeout opts timeout, rid := rid }
          :: st.requests } : PoolState) := fun x hx => hInv x hx
  have hsf := spawnConnections_frame opts
    { st with
      requests := { deadline := now + clampTimeout opts timeout, rid := rid }
        :: st.requests }
  have hInv2 := readyGenOK_spawnConnections opts _ hInv1
  obtain ⟨g1, g2, g3⟩ := fulfillRequests_inv opts _ hInv2
  refine ⟨g1, ?_, ?_⟩
  · rw [g2, hsf.2.2.2.2.1]
  · intro m x hx
    exact (g3 m x hx).trans hsf.2.2.2.2.1

/-- ServiceStateMachine::State from service_state_machine.cpp. -/
inductive SSMState where
  | created
  | source
  | sourceWait
  | process
  | sinkWait
  | endSession
  | ended
deriving DecidableEq, Repr

/-- How the body of the dispatched step (_sourceMessage, _processMessage or
_cleanupSession) finishes: a normal return, a thrown DBException, or a
thrown std::exception that is not a DBException. -/
inductive StepOutcome where
  | completed
  | threwDBException
  | threwStdException
deriving DecidableEq, Repr

/-- What one call to ServiceStateMachine::_runNextInGuard does at its
boundary: the step ran and returned; a DBException was caught, logged, the
state stored as EndSession and _cleanupSession invoked; or a generic
std::exception was caught, logged and the process terminated through
quickExit(EXIT_UNCAUGHT). -/
inductive RunResult where
  | ranStep
  | caughtEndSession
  | terminated
deriving DecidableEq, Repr

/-- ServiceStateMachine::_runNextInGuard: assert the state is not Ended,
promote Created to Source, dispatch Source / Process / EndSession steps
inside the try block; a waiting state hits MONGO_UNREACHABLE (modeled as
none); DBException is caught and converted to EndSession plus cleanup;
any other std::exception is caught and the process exits via quickExit. -/
def runNextInGuard (cur : SSMState) (out : StepOutcome) : Option RunResult :=
  if cur = .ended then none
  else
    match (if cur = .created then SSMState.source else cur) with
    | .source | .process | .endSession =>
      match out with
      | .completed => some .ranStep
      | .threwDBException => some .caughtEndSession
      | .threwStdException => some .terminated
    | _ => none

/-- The thread-local scheduling state of ServiceExecutorSynchronous: the
running flag, the private work queue of the calling thread, and the
thread-local recursion depth. Tasks are identified by number. -/
structure SyncExecState where
  stillRunning : Bool
  localWorkQueue : List Nat
  localRecursionDepth : Int
deriving DecidableEq, Repr

/-- transport::ServiceExecutor::ScheduleFlags as passed to schedule. -/
structure ScheduleFlags where
  mayRecurse : Bool
  deferredTask : Bool
  mayYieldBeforeSchedule : Bool
deriving DecidableEq, Repr

/-- What one call to ServiceExecutorSynchronous::schedule did with the
task: rejected because of shutdown, ran inline on the calling thread,
appended to the private queue, or handed to a freshly spawned worker. -/
inductive ScheduleResult where
  | rejectedShutdown
  | ranInline (task : Nat)
  | queued (task : Nat)
  | spawnedWorker (task : Nat)
deriving DecidableEq, Repr

/-- Declared default of synchronousServiceExecutorRecursionLimit. -/
def synchronousServiceExecutorRecursionLimit : Int := 8

/-- ServiceExecutorSynchronous::schedule: reject when not running; with a
non-empty private queue, run the task inline (bumping the recursion depth)
when kMayRecurse is set and the depth is below the limit, else push it on
the queue; with an empty private queue, launch a worker thread seeded with
the task. (The kMayYieldBeforeSchedule markThreadIdle / yield branch only
issues scheduler hints and does not change this state.) -/
def syncSchedule (recursionLimit : Int) (flags : ScheduleFlags) (task : Nat)
    (st : SyncExecState) : SyncExecState × ScheduleResult :=
  if st.stillRunning = false then (st, .rejectedShutdown)
  else if st.localWorkQueue ≠ [] then
    if flags.mayRecurse = true ∧ st.localRecursionDepth < recursionLimit then
      ({ st with localRecursionDepth := st.localRecursionDepth + 1 }, .ranInline task)
    else
      ({ st with localWorkQueue := st.localWorkQueue ++ [task] }, .queued task)
  else
    (st, .spawnedWorker task)

/-- The thread-local state of the worker spawned by the first schedule call
for a connection: its queue holds the task it was launched with. -/
def workerInitState (task : Nat) : SyncExecState :=
  { stillRunning := true, localWorkQueue := [task], localRecursionDepth := 0 }

/-- One iteration of the worker drain loop in
ServiceExecutorSynchronous::schedule: set the recursion depth to 1, run
the task at the queue front (runTask is the arbitrary effect that task has
on the thread-local state, e.g. via nested schedule calls), then pop the
front of the queue. -/
def drainIter (runTask : SyncExecState → SyncExecState) (st : SyncExecState) :
    SyncExecState :=
  let st2 := runTask { st with localRecursionDepth := 1 }
  { st2 with localWorkQueue := st2.localWorkQueue.drop 1 }

/-- The declared initial value of the adaptiveServiceExecutorReservedThreads
server parameter in service_executor_adaptive.cpp. The comment above the
declaration documents -1 as the default sentinel, but the declaration
itself says 1, marked with a debug note. -/
def adaptiveServiceExecutorReservedThreads : Int := 1

/-- ServerParameterOptions::reservedThreads in service_executor_adaptive.cpp:
when the stored parameter value is -1, the reserved-thread count becomes
the number of available cores divided by two, floored at 2; otherwise the
stored value is used as is. -/
def reservedThreads (stored : Int) (numCores : Nat) : Int :=
  if stored = -1 then max ((numCores / 2 : Nat) : Int) 2 else stored

/-- The utilization computation of one wake of
ServiceExecutorAdaptive::_controllerThreadRoutine: spentExecuting and
spentRunning are the tick totals from _getThreadTimerTotal summed across
all threads; the last-seen totals come from the previous wake. When the
running total or its delta is zero the utilization is defined to be 0
without dividing; otherwise it is the ratio of the deltas times 100. -/
def controllerUtilizationPct
    (spentExecuting spentRunning lastSpentExecuting lastSpentRunning : Nat) : ℚ :=
  let diffExecuting := spentExecuting - lastSpentExecuting
  let diffRunning := spentRunning - lastSpentRunning
  if spentRunning = 0 ∨ diffRunning = 0 then 0
  else ((diffExecuting : ℚ) / (diffRunning : ℚ)) * 100

/-- Sample pool options for concrete witnesses: min 1, max 2 connections,
2 concurrently connecting, 5 second refresh timeout, 1 minute refresh
requirement, 5 minute host timeout. -/
def sampleOptions : Options :=
  { minConnections := 1, maxConnections := 2, maxConnecting := 2,
    refreshTimeout := 5000, refreshRequirement := 60000, hostTimeout := 300000 }

/-- A destination pool with nothing in it. -/
def emptyPool : PoolState :=
  { readyPool := [], processingPool := [], droppedProcessingPool := [],
    checkedOutPool := [], requests := [], generation := 0, created := 0,
    nextId := 0, inFulfillRequests := false, inSpawnConnections := false,
    inShutdown := false }

/-- A pool with one pending request and nothing else. -/
def poolOneRequest : PoolState :=
  { emptyPool with requests := [{ deadline := 100, rid := 1 }] }

/-- A healthy current-generation connection. -/
def healthyConn : Conn :=
  { id := 5, gen := 0, lastUsed := 0, healthy := true, status := .ok }

/-- A pool with one ready healthy connection and one pending request. -/
def poolReadyAndRequest : PoolState :=
  { emptyPool with
    readyPool := [healthyConn]
    requests := [{ deadline := 100, rid := 1 }] }

/-- A checked-out connection whose refresh deadline will have long passed
at time 999999. -/
def dueConn : Conn :=
  { id := 1, gen := 0, lastUsed := 0, healthy := true, status := .ok }

/-- A second checked-out connection keeping the pool at its minimum. -/
def otherConn : Conn :=
  { id := 2, gen := 0, lastUsed := 0, healthy := true, status := .ok }

/-- A pool with two checked-out connections and nothing else. -/
def poolTwoCheckedOut : PoolState :=
  { emptyPool with checkedOutPool := [dueConn, otherConn] }

/-- Claim C1: for every run of spawnConnections for a destination, new
outbound connections are begun one at a time while
ready + processing + checked-out < target and processing <
max-concurrently-connecting, where target = max(min-pool-size,
min(pending-requests + checked-out, max-pool-size)); each spawned
connection is placed in the processing pool and the created-connections
counter is incremented by one. -/
theorem spawnConnections_spec (opts : Options) (st : PoolState)
    (hguard : st.inSpawnConnections = false) :
    ∃ n newConns,
      (spawnConnections opts st).processingPool = newConns ++ st.processingPool ∧
      newConns.length = n ∧
      (∀ c ∈ newConns, c.gen = st.generation) ∧
      (spawnConnections opts st).created = st.created + n ∧
      (spawnConnections opts st).readyPool = st.readyPool ∧
      (spawnConnections opts st).checkedOutPool = st.checkedOutPool ∧
      (spawnConnections opts st).requests = st.requests ∧
      ¬ (st.readyPool.length + (st.processingPool.length + n) + st.checkedOutPool.length
            < max opts.minConnections
                (min (st.requests.length + st.checkedOutPool.length) opts.maxConnections)
          ∧ st.processingPool.length + n < opts.maxConnecting) ∧
      (∀ k < n,
        st.readyPool.length + (st.processingPool.length + k) + st.checkedOutPool.length
            < max opts.minConnections
                (min (st.requests.length + st.checkedOutPool.length) opts.maxConnections)
          ∧ st.processingPool.length + k < opts.maxConnecting) := by
  unfold spawnConnections
  rw [if_neg (by simp [hguard])]
  obtain ⟨n, newConns, h1, h2, h3, h4, h5, h6⟩ := spawnLoop_spec opts st
  have hf := spawnLoop_frame opts st
  exact ⟨n, newConns, h1, h2, h3, h4, hf.1, hf.2.1, hf.2.2.2.1, h5, h6⟩

/-- Witness for C1 at a concrete input: an empty pool with one pending
request and min-pool-size 1 spawns connections per the claim. -/
theorem spawnConnections_spec_witness :
    poolOneRequest.inSpawnConnections = false ∧
    ∃ n newConns,
      (spawnConnections sampleOptions poolOneRequest).processingPool
        = newConns ++ poolOneRequest.processingPool ∧
      newConns.length = n ∧
      (∀ c ∈ newConns, c.gen = poolOneRequest.generation) ∧
      (spawnConnections sampleOptions poolOneRequest).created
        = poolOneRequest.created + n ∧
      (spawnConnections sampleOptions poolOneRequest).readyPool
        = poolOneRequest.readyPool ∧
      (spawnConnections sampleOptions poolOneRequest).checkedOutPool
        = poolOneRequest.checkedOutPool ∧
      (spawnConnections sampleOptions poolOneRequest).requests
        = poolOneRequest.requests ∧
      ¬ (poolOneRequest.readyPool.length + (poolOneRequest.processingPool.length + n)
            + poolOneRequest.checkedOutPool.length
            < max sampleOptions.minConnections
                (min (poolOneRequest.requests.length + poolOneRequest.checkedOutPool.length)
                  sampleOptions.maxConnections)
          ∧ poolOneRequest.processingPool.length + n < sampleOptions.maxConnecting) ∧
      (∀ k < n,
        poolOneRequest.readyPool.length + (poolOneRequest.processingPool.length + k)
            + poolOneRequest.checkedOutPool.length
            < max sampleOptions.minConnections
                (min (poolOneRequest.requests.length + poolOneRequest.checkedOutPool.length)
                  sampleOptions.maxConnections)
          ∧ poolOneRequest.processingPool.length + k < sampleOptions.maxConnecting) :=
  ⟨rfl, spawnConnections_spec sampleOptions poolOneRequest rfl⟩

/-- Claim C3: one run of processFailure bumps the generation exactly once,
drops all ready connections, migrates all processing connections to the
dropped-processing pool, empties the pending-request queue, and invokes
the callback of every request pending at that moment exactly once with
that same failure status. -/
theorem processFailure_spec (s : Status) (st : PoolState) :
    (processFailure s st).1.generation = st.generation + 1 ∧
    (processFailure s st).1.readyPool = [] ∧
    (processFailure s st).1.processingPool = [] ∧
    (processFailure s st).1.droppedProcessingPool
      = st.droppedProcessingPool ++ st.processingPool ∧
    (processFailure s st).1.checkedOutPool = st.checkedOutPool ∧
    (processFailure s st).1.requests = [] ∧
    List.Perm (processFailure s st).2
      (st.requests.map (fun r => PoolEvent.requestFailed r s)) :=
  ⟨rfl, rfl, rfl, rfl, rfl, rfl, drainRequests_perm st.requests s⟩

/-- Claim C10: a negative timeout passed to getConnection is silently
replaced by the configured refresh timeout, exactly like a timeout
exceeding that maximum, so the deadline of the request becomes now plus
the refresh timeout. -/
theorem getConnection_negative_timeout (opts : Options) (now timeout : Int)
    (rid : Nat) (st : PoolState) (hneg : timeout < 0) :
    clampTimeout opts timeout = opts.refreshTimeout ∧
    getConnection opts now timeout rid st
      = getConnection opts now opts.refreshTimeout rid st ∧
    (∀ t, opts.refreshTimeout < t →
      getConnection opts now timeout rid st = getConnection opts now t rid st) ∧
    ({ deadline := now + clampTimeout opts timeout, rid := rid } : Request)
      = { deadline := now + opts.refreshTimeout, rid := rid } := by
  have h1 : clampTimeout opts timeout = opts.refreshTimeout := by
    unfold clampTimeout
    rw [if_pos (Or.inl hneg)]
  have h2 : clampTimeout opts opts.refreshTimeout = opts.refreshTimeout := by
    unfold clampTimeout
    split
    · rfl
    · rfl
  refine ⟨h1, ?_, ?_, by rw [h1]⟩
  · unfold getConnection
    rw [h1, h2]
  · intro t ht
    have h3 : clampTimeout opts t = opts.refreshTimeout := by
      unfold clampTimeout
      rw [if_pos (Or.inr ht)]
    unfold getConnection
    rw [h1, h3]

/-- Witness for C10 at a concrete input: timeout -7 on an empty pool
behaves exactly like the 5000ms refresh-timeout maximum. -/
theorem getConnection_negative_timeout_witness :
    (-7 : Int) < 0 ∧
    (clampTimeout sampleOptions (-7) = sampleOptions.refreshTimeout ∧
    getConnection sampleOptions 10 (-7) 1 emptyPool
      = getConnection sampleOptions 10 sampleOptions.refreshTimeout 1 emptyPool ∧
    (∀ t, sampleOptions.refreshTimeout < t →
      getConnection sampleOptions 10 (-7) 1 emptyPool
        = getConnection sampleOptions 10 t 1 emptyPool) ∧
    ({ deadline := 10 + clampTimeout sampleOptions (-7), rid := 1 } : Request)
      = { deadline := 10 + sampleOptions.refreshTimeout, rid := 1 }) :=
  ⟨by decide, getConnection_negative_timeout sampleOptions 10 (-7) 1 emptyPool (by decide)⟩

/-- Claim C2: whenever fulfillRequests runs with at least one pending
request and at least one ready connection, the most-recently-used healthy
ready connection is removed from the ready set, moved to the checked-out
set (reset to unknown), and handed to the pending request with the
earliest deadline among those still pending; an unhealthy ready connection
is instead dropped, triggering a fresh spawn if the ready set became
empty; and fulfillment repeats until no requests or no ready connections
remain. -/
theorem fulfillRequests_run (opts : Options) (st : PoolState)
    (hguard : st.inFulfillRequests = false) :
    ((fulfillRequests opts st).1.requests = []
      ∨ (fulfillRequests opts st).1.readyPool = []) ∧
    (∀ c rest, st.readyPool = c :: rest → st.requests ≠ [] → c.healthy = true →
      ∃ m remaining,
        popEarliest st.requests = some (m, remaining) ∧
        (∀ r ∈ st.requests, m.deadline ≤ r.deadline) ∧
        List.Perm st.requests (m :: remaining) ∧
        fulfillRequests opts st =
          ((fulfillLoop opts
              { st with
                readyPool := rest,
                requests := remaining,
                checkedOutPool := checkOutConn c :: st.checkedOutPool }).1,
           PoolEvent.handed m (checkOutConn c) ::
            (fulfillLoop opts
              { st with
                readyPool := rest,
                requests := remaining,
                checkedOutPool := checkOutConn c :: st.checkedOutPool }).2)) ∧
    (∀ c rest, st.readyPool = c :: rest → st.requests ≠ [] → c.healthy = false →
      fulfillRequests opts st =
        ((fulfillLoop opts
            (if rest.isEmpty then spawnConnections opts { st with readyPool := rest }
             else { st with readyPool := rest })).1,
         PoolEvent.droppedUnhealthy c ::
          (fulfillLoop opts
            (if rest.isEmpty then spawnConnections opts { st with readyPool := rest }
             else { st with readyPool := rest })).2)) := by
  have hrun : fulfillRequests opts st = fulfillLoop opts st := by
    unfold fulfillRequests
    rw [if_neg (by simp [hguard])]
  refine ⟨?_, ?_, ?_⟩
  · rw [hrun]
    exact fulfillLoop_exit opts st
  · intro c rest hready hreq hc
    cases hp : popEarliest st.requests with
    | none => exact absurd (popEarliest_eq_none.mp hp) hreq
    | some p =>
      obtain ⟨m, remaining⟩ := p
      refine ⟨m, remaining, rfl, popEarliest_min hp, popEarliest_perm hp, ?_⟩
      rw [hrun]
      exact fulfillLoop_healthy hready hp hc
  · intro c rest hready hreq hc
    rw [hrun]
    exact fulfillLoop_unhealthy hready hreq hc

/-- Witness for C2 at a concrete input: a pool with one healthy ready
connection and one pending request. -/
theorem fulfillRequests_run_witness :
    poolReadyAndRequest.inFulfillRequests = false ∧
    (((fulfillRequests sampleOptions poolReadyAndRequest).1.requests = []
      ∨ (fulfillRequests sampleOptions poolReadyAndRequest).1.readyPool = []) ∧
    (∀ c rest, poolReadyAndRequest.readyPool = c :: rest →
        poolReadyAndRequest.requests ≠ [] → c.healthy = true →
      ∃ m remaining,
        popEarliest poolReadyAndRequest.requests = some (m, remaining) ∧
        (∀ r ∈ poolReadyAndRequest.requests, m.deadline ≤ r.deadline) ∧
        List.Perm poolReadyAndRequest.requests (m :: remaining) ∧
        fulfillRequests sampleOptions poolReadyAndRequest =
          ((fulfillLoop sampleOptions
              { poolReadyAndRequest with
                readyPool := rest,
                requests := remaining,
                checkedOutPool := checkOutConn c :: poolReadyAndRequest.checkedOutPool }).1,
           PoolEvent.handed m (checkOutConn c) ::
            (fulfillLoop sampleOptions
              { poolReadyAndRequest with
                readyPool := rest,
                requests := remaining,
                checkedOutPool := checkOutConn c :: poolReadyAndRequest.checkedOutPool }).2)) ∧
    (∀ c rest, poolReadyAndRequest.readyPool = c :: rest →
        poolReadyAndRequest.requests ≠ [] → c.healthy = false →
      fulfillRequests sampleOptions poolReadyAndRequest =
        ((fulfillLoop sampleOptions
            (if rest.isEmpty then
              spawnConnections sampleOptions { poolReadyAndRequest with readyPool := rest }
             else { poolReadyAndRequest with readyPool := rest })).1,
         PoolEvent.droppedUnhealthy c ::
          (fulfillLoop sampleOptions
            (if rest.isEmpty then
              spawnConnections sampleOptions { poolReadyAndRequest with readyPool := rest }
             else { poolReadyAndRequest with readyPool := rest })).2))) :=
  ⟨rfl, fulfillRequests_run sampleOptions poolReadyAndRequest rfl⟩

/-- Claim C4: a connection whose generation differs from the current
generation of its pool is never handed to a caller: if every ready
connection carries the current generation, then after any pool entry
point this invariant still holds, every connection handed out by that
entry point carried the current generation (both the one at the start of
the entry point and the one at its end), and a returned connection with a
stale generation is discarded without being placed in the ready pool. -/
theorem staleGeneration_never_handed (opts : Options) (op : PoolOp)
    (st : PoolState) (hInv : readyGenOK st) :
    readyGenOK (applyOp opts op st).1 ∧
    (∀ m c, PoolEvent.handed m c ∈ (applyOp opts op st).2 →
      c.gen = st.generation ∧ c.gen = (applyOp opts op st).1.generation) ∧
    (∀ now cid conn remaining,
      op = PoolOp.ret now cid →
      takeFromPoolById st.checkedOutPool cid = some (conn, remaining) →
      conn.gen ≠ st.generation →
      (applyOp opts op st).1 = { st with checkedOutPool := remaining } ∧
      (applyOp opts op st).2 = [PoolEvent.connDiscarded conn]) := by
  cases op with
  | get now timeout rid =>
    obtain ⟨a, b, c⟩ := getConnection_inv opts now timeout rid st hInv
    refine ⟨a, ?_, ?_⟩
    · intro m x hx
      exact ⟨c m x hx, (c m x hx).trans b.symm⟩
    · intro now2 cid2 conn remaining hop
      exact absurd hop (by simp)
  | ret now cid =>
    obtain ⟨a, b, c⟩ := returnConnection_inv opts now cid st hInv
    refine ⟨a, ?_, ?_⟩
    · intro m x hx
      exact ⟨c m x hx, (c m x hx).trans b.symm⟩
    · intro now2 cid2 conn remaining hop htake hstale
      injection hop with hnow hcid
      subst hnow
      subst hcid
      show (returnConnection opts now cid st).1 = _ ∧
        (returnConnection opts now cid st).2 = _
      unfold returnConnection
      rw [htake]
      simp [hstale]
  | refreshDone cid s =>
    obtain ⟨a, b⟩ := refreshCallback_inv opts cid s st hInv
    refine ⟨a, ?_, ?_⟩
    · intro m x hx
      exact ⟨(b m x hx).1, (b m x hx).1.trans (b m x hx).2.symm⟩
    · intro now2 cid2 conn remaining hop
      exact absurd hop (by simp)
  | setupDone cid s =>
    obtain ⟨a, b⟩ := setupCallback_inv opts cid s st hInv
    refine ⟨a, ?_, ?_⟩
    · intro m x hx
      exact ⟨(b m x hx).1, (b m x hx).1.trans (b m x hx).2.symm⟩
    · intro now2 cid2 conn remaining hop
      exact absurd hop (by simp)
  | readyTimeout now cid =>
    obtain ⟨a, b, c⟩ := readyConnTimeout_inv opts now cid st hInv
    refine ⟨a, ?_, ?_⟩
    · intro m x hx
      exact ⟨c m x hx, (c m x hx).trans b.symm⟩
    · intro now2 cid2 conn remaining hop
      exact absurd hop (by simp)
  | dropConns s =>
    refine ⟨?_, ?_, ?_⟩
    · intro x hx
      simp only [applyOp, processFailure] at hx
      simp at hx
    · intro m x hx
      simp only [applyOp, processFailure] at hx
      obtain ⟨r, hr⟩ := drainRequests_events st.requests s _ hx
      exact PoolEvent.noConfusion hr
    · intro now2 cid2 conn remaining hop
      exact absurd hop (by simp)

/-- Witness for C4 at a concrete input: the ready-generation invariant
holds in a pool with one current-generation ready connection, and is
preserved by a get operation. -/
theorem staleGeneration_never_handed_witness :
    readyGenOK poolReadyAndRequest ∧
    (readyGenOK (applyOp sampleOptions (PoolOp.get 0 100 2) poolReadyAndRequest).1 ∧
    (∀ m c, PoolEvent.handed m c
        ∈ (applyOp sampleOptions (PoolOp.get 0 100 2) poolReadyAndRequest).2 →
      c.gen = poolReadyAndRequest.generation ∧
      c.gen = (applyOp sampleOptions (PoolOp.get 0 100 2) poolReadyAndRequest).1.generation) ∧
    (∀ now cid conn remaining,
      PoolOp.get 0 100 2 = PoolOp.ret now cid →
      takeFromPoolById poolReadyAndRequest.checkedOutPool cid = some (conn, remaining) →
      conn.gen ≠ poolReadyAndRequest.generation →
      (applyOp sampleOptions (PoolOp.get 0 100 2) poolReadyAndRequest).1
        = { poolReadyAndRequest with checkedOutPool := remaining } ∧
      (applyOp sampleOptions (PoolOp.get 0 100 2) poolReadyAndRequest).2
        = [PoolEvent.connDiscarded conn])) :=
  ⟨by decide,
   staleGeneration_never_handed sampleOptions (PoolOp.get 0 100 2) poolReadyAndRequest
     (by decide)⟩

/-- Counterexample to claim C5 as stated: a std::exception thrown while
executing the Source step is not converted into a transition to
EndSession followed by session cleanup; _runNextInGuard terminates the
whole process through quickExit(EXIT_UNCAUGHT) instead. -/
theorem runNextInGuard_counterexample :
    runNextInGuard SSMState.source StepOutcome.threwStdException
      = some RunResult.terminated ∧
    runNextInGuard SSMState.source StepOutcome.threwStdException
      ≠ some RunResult.caughtEndSession := by
  decide

/-- Claim C5 as amended: for every lifecycle step the state machine
executes, a DBException raised while executing the step is caught at the
scheduling boundary, logged, and converted into a transition to EndSession
followed by session cleanup; any other std::exception is caught, logged,
and terminates the process via quickExit; in neither case is the error
propagated past the boundary of the state machine to its caller. -/
theorem runNextInGuard_error_policy (cur : SSMState)
    (h : cur = SSMState.created ∨ cur = SSMState.source
      ∨ cur = SSMState.process ∨ cur = SSMState.endSession) :
    runNextInGuard cur StepOutcome.threwDBException
      = some RunResult.caughtEndSession ∧
    runNextInGuard cur StepOutcome.threwStdException
      = some RunResult.terminated ∧
    runNextInGuard cur StepOutcome.completed = some RunResult.ranStep := by
  rcases h with h | h | h | h <;> subst h <;> exact ⟨rfl, rfl, rfl⟩

/-- Witness for the amended C5 at a concrete input: the Process step. -/
theorem runNextInGuard_error_policy_witness :
    (SSMState.process = SSMState.created ∨ SSMState.process = SSMState.source
      ∨ SSMState.process = SSMState.process
      ∨ SSMState.process = SSMState.endSession) ∧
    (runNextInGuard SSMState.process StepOutcome.threwDBException
      = some RunResult.caughtEndSession ∧
    runNextInGuard SSMState.process StepOutcome.threwStdException
      = some RunResult.terminated ∧
    runNextInGuard SSMState.process StepOutcome.completed
      = some RunResult.ranStep) :=
  ⟨by decide, runNextInGuard_error_policy SSMState.process (by decide)⟩

/-- Counterexample to claim C6 as stated: a connection returned past its
refresh deadline to a pool that already meets minConnections is discarded
(allowed to lapse), not moved to the processing pool for an asynchronous
refresh. At time 999999 connection 1 is overdue (lastUsed 0 with a 60000ms
refresh requirement), the pool still has one other checked-out connection
(meeting min 1), and returnConnection leaves both the processing pool and
the ready pool empty while discarding the connection. -/
theorem returnConnection_counterexample :
    dueConn.lastUsed + sampleOptions.refreshRequirement ≤ 999999 ∧
    takeFromPoolById poolTwoCheckedOut.checkedOutPool 1
      = some (dueConn, [otherConn]) ∧
    sampleOptions.minConnections ≤
      poolTwoCheckedOut.readyPool.length + poolTwoCheckedOut.processingPool.length
        + [otherConn].length ∧
    (returnConnection sampleOptions 999999 1 poolTwoCheckedOut).1.processingPool = [] ∧
    (returnConnection sampleOptions 999999 1 poolTwoCheckedOut).1.readyPool = [] ∧
    (returnConnection sampleOptions 999999 1 poolTwoCheckedOut).2
      = [PoolEvent.connDiscarded dueConn] := by
  decide

/-- Claim C6 as amended: when a connection is returned past its
needs-refresh deadline, then if the pool (not counting the returned
connection) is at or above its minimum size the connection is allowed to
lapse and is discarded; only when the pool is below its minimum size is
the connection moved to processing for an asynchronous refresh; and a
refresh that fails with a time-limit-exceeded error triggers spawning of
a new connection instead of cascading a hard failure. -/
theorem returnConnection_refresh_policy (opts : Options) (now : Int)
    (cid : Nat) (st : PoolState) (conn : Conn) (remaining : List Conn)
    (htake : takeFromPoolById st.checkedOutPool cid = some (conn, remaining))
    (hgen : conn.gen = st.generation)
    (hok : conn.status.isOK = true)
    (hdue : conn.lastUsed + opts.refreshRequirement ≤ now) :
    (opts.minConnections ≤
        st.readyPool.length + st.processingPool.length + remaining.length →
      returnConnection opts now cid st
        = ({ st with checkedOutPool := remaining },
           [PoolEvent.connDiscarded conn])) ∧
    (st.readyPool.length + st.processingPool.length + remaining.length
        < opts.minConnections →
      returnConnection opts now cid st
        = ({ st with
              checkedOutPool := remaining,
              processingPool := conn :: st.processingPool }, [])) ∧
    (∀ cid2 conn2 st0,
      takeFromProcessingPool st cid2 = some (conn2, st0) →
      conn2.gen = st0.generation →
      st0.inShutdown = false →
      refreshCallback opts cid2 (.error networkInterfaceExceededTimeLimit) st
        = (spawnConnections opts st0, [PoolEvent.connDiscarded conn2])) := by
  refine ⟨?_, ?_, ?_⟩
  · intro hmin
    unfold returnConnection
    rw [htake]
    simp only [ne_eq, hgen, not_true_eq_false, if_false, ite_false, hok,
      Bool.false_eq_true, if_pos hdue, if_pos hmin]
    simp
  · intro hmin
    unfold returnConnection
    rw [htake]
    simp only [ne_eq, hgen, not_true_eq_false, if_false, ite_false, hok,
      Bool.false_eq_true, if_pos hdue, if_neg (Nat.not_le.mpr hmin)]
    simp
  · intro cid2 conn2 st0 htake2 hgen2 hshut
    unfold refreshCallback
    rw [htake2]
    simp [hgen2, hshut, Status.isOK, networkInterfaceExceededTimeLimit]

/-- Witness for the amended C6 at a concrete input: the overdue connection
returned to a pool meeting its minimum is discarded. -/
theorem returnConnection_refresh_policy_witness :
    takeFromPoolById poolTwoCheckedOut.checkedOutPool 1
      = some (dueConn, [otherConn]) ∧
    dueConn.gen = poolTwoCheckedOut.generation ∧
    dueConn.status.isOK = true ∧
    dueConn.lastUsed + sampleOptions.refreshRequirement ≤ 999999 ∧
    ((sampleOptions.minConnections ≤
        poolTwoCheckedOut.readyPool.length + poolTwoCheckedOut.processingPool.length
          + [otherConn].length →
      returnConnection sampleOptions 999999 1 poolTwoCheckedOut
        = ({ poolTwoCheckedOut with checkedOutPool := [otherConn] },
           [PoolEvent.connDiscarded dueConn])) ∧
    (poolTwoCheckedOut.readyPool.length + poolTwoCheckedOut.processingPool.length
        + [otherConn].length < sampleOptions.minConnections →
      returnConnection sampleOptions 999999 1 poolTwoCheckedOut
        = ({ poolTwoCheckedOut with
              checkedOutPool := [otherConn],
              processingPool := dueConn :: poolTwoCheckedOut.processingPool }, [])) ∧
    (∀ cid2 conn2 st0,
      takeFromProcessingPool poolTwoCheckedOut cid2 = some (conn2, st0) →
      conn2.gen = st0.generation →
      st0.inShutdown = false →
      refreshCallback sampleOptions cid2 (.error networkInterfaceExceededTimeLimit)
          poolTwoCheckedOut
        = (spawnConnections sampleOptions st0, [PoolEvent.connDiscarded conn2]))) :=
  ⟨by decide, by decide, by decide, by decide,
   returnConnection_refresh_policy sampleOptions 999999 1 poolTwoCheckedOut dueConn
     [otherConn] (by decide) (by decide) (by decide) (by decide)⟩

/-- Claim C7: for a task scheduled on the synchronous executor from a
thread whose private work queue is non-empty, if the may-run-inline flag
(kMayRecurse) is set and the current recursion depth is below the
configured recursion limit, the task executes immediately on the calling
thread with the recursion depth incremented; otherwise it is appended to
the private queue; and the recursion depth is reset to 1 at the top of
each drain loop iteration, before the task at the queue front runs. -/
theorem syncSchedule_spec (lim : Int) (flags : ScheduleFlags) (task : Nat)
    (st : SyncExecState) (f : SyncExecState → SyncExecState)
    (hrun : st.stillRunning = true) (hq : st.localWorkQueue ≠ []) :
    (flags.mayRecurse = true → st.localRecursionDepth < lim →
      syncSchedule lim flags task st
        = ({ st with localRecursionDepth := st.localRecursionDepth + 1 },
           ScheduleResult.ranInline task)) ∧
    (¬ (flags.mayRecurse = true ∧ st.localRecursionDepth < lim) →
      syncSchedule lim flags task st
        = ({ st with localWorkQueue := st.localWorkQueue ++ [task] },
           ScheduleResult.queued task)) ∧
    drainIter f st
      = { f { st with localRecursionDepth := 1 } with
          localWorkQueue := (f { st with localRecursionDepth := 1 }).localWorkQueue.drop 1 } := by
  refine ⟨?_, ?_, rfl⟩
  · intro hflag hdepth
    unfold syncSchedule
    rw [if_neg (by simp [hrun]), if_pos hq, if_pos ⟨hflag, hdepth⟩]
  · intro hno
    unfold syncSchedule
    rw [if_neg (by simp [hrun]), if_pos hq, if_neg hno]

/-- Witness for C7 at a concrete input: a running thread with one queued
task at recursion depth 1 and the default limit 8. -/
theorem syncSchedule_spec_witness :
    ({ stillRunning := true, localWorkQueue := [7], localRecursionDepth := 1
        : SyncExecState }).stillRunning = true ∧
    ({ stillRunning := true, localWorkQueue := [7], localRecursionDepth := 1
        : SyncExecState }).localWorkQueue ≠ [] ∧
    ((({ mayRecurse := true, deferredTask := false, mayYieldBeforeSchedule := false
          : ScheduleFlags }).mayRecurse = true →
      ({ stillRunning := true, localWorkQueue := [7], localRecursionDepth := 1
          : SyncExecState }).localRecursionDepth
          < synchronousServiceExecutorRecursionLimit →
      syncSchedule synchronousServiceExecutorRecursionLimit
          { mayRecurse := true, deferredTask := false, mayYieldBeforeSchedule := false }
          9 { stillRunning := true, localWorkQueue := [7], localRecursionDepth := 1 }
        = ({ { stillRunning := true, localWorkQueue := [7], localRecursionDepth := 1
              : SyncExecState } with
            localRecursionDepth :=
              ({ stillRunning := true, localWorkQueue := [7], localRecursionDepth := 1
                : SyncExecState }).localRecursionDepth + 1 },
           ScheduleResult.ranInline 9)) ∧
    (¬ (({ mayRecurse := true, deferredTask := false, mayYieldBeforeSchedule := false
          : ScheduleFlags }).mayRecurse = true ∧
        ({ stillRunning := true, localWorkQueue := [7], localRecursionDepth := 1
          : SyncExecState }).localRecursionDepth
          < synchronousServiceExecutorRecursionLimit) →
      syncSchedule synchronousServiceExecutorRecursionLimit
          { mayRecurse := true, deferredTask := false, mayYieldBeforeSchedule := false }
          9 { stillRunning := true, localWorkQueue := [7], localRecursionDepth := 1 }
        = ({ { stillRunning := true, localWorkQueue := [7], localRecursionDepth := 1
              : SyncExecState } with
            localWorkQueue :=
              ({ stillRunning := true, localWorkQueue := [7], localRecursionDepth := 1
                : SyncExecState }).localWorkQueue ++ [9] },
           ScheduleResult.queued 9)) ∧
    drainIter id { stillRunning := true, localWorkQueue := [7], localRecursionDepth := 1 }
      = { id ({ { stillRunning := true, localWorkQueue := [7], localRecursionDepth := 1
            : SyncExecState } with localRecursionDepth := 1 }) with
          localWorkQueue :=
            (id ({ { stillRunning := true, localWorkQueue := [7], localRecursionDepth := 1
              : SyncExecState } with
              localRecursionDepth := 1 })).localWorkQueue.drop 1 }) :=
  ⟨rfl, by decide,
   syncSchedule_spec synchronousServiceExecutorRecursionLimit
     { mayRecurse := true, deferredTask := false, mayYieldBeforeSchedule := false }
     9 { stillRunning := true, localWorkQueue := [7], localRecursionDepth := 1 }
     id rfl (by decide)⟩

/-- Claim C8 concerns the reserved-thread default of the adaptive
executor. The code declares the adaptiveServiceExecutorReservedThreads
parameter with initial value 1 (marked as a debug change), although the
comment above the declaration documents -1 as the default, which
reservedThreads turns into half the available cores with a minimum of 2.
With the declared default, an unconfigured 8-core machine gets 1 reserved
thread, not max(8 / 2, 2) = 4: the code diverges from both the claim and
its own documentation. -/
theorem reservedThreads_default_divergence :
    reservedThreads adaptiveServiceExecutorReservedThreads 8 = 1 ∧
    reservedThreads (-1) 8 = 4 ∧
    reservedThreads adaptiveServiceExecutorReservedThreads 8
      ≠ reservedThreads (-1) 8 ∧
    (∀ cores : Nat, reservedThreads (-1) cores = max ((cores / 2 : Nat) : Int) 2) := by
  refine ⟨by decide, by decide, by decide, ?_⟩
  intro cores
  unfold reservedThreads
  rw [if_pos rfl]

/-- Claim C9: on every wake of the controller thread of the adaptive
executor, utilization is the delta of accumulated executing time divided
by the delta of accumulated running time since the last wake (as a
percentage), and whenever the running-time total or its delta is zero the
utilization is defined to be 0 without performing the division. -/
theorem controllerUtilization_spec
    (spentExecuting spentRunning lastExecuting lastRunning : Nat) :
    (spentRunning = 0 ∨ spentRunning - lastRunning = 0 →
      controllerUtilizationPct spentExecuting spentRunning lastExecuting lastRunning
        = 0) ∧
    (spentRunning ≠ 0 → spentRunning - lastRunning ≠ 0 →
      controllerUtilizationPct spentExecuting spentRunning lastExecuting lastRunning
        = ((spentExecuting - lastExecuting : Nat) : ℚ)
            / ((spentRunning - lastRunning : Nat) : ℚ) * 100) := by
  constructor
  · intro h
    unfold controllerUtilizationPct
    rw [if_pos h]
  · intro h1 h2
    unfold controllerUtilizationPct
    rw [if_neg (by tauto)]

/-- Witness for C9 at concrete inputs: a wake that observed 10 executing
ticks out of 20 running ticks divides the deltas, and a wake with zero
accumulated running time yields utilization 0. -/
theorem controllerUtilization_spec_witness :
    controllerUtilizationPct 10 20 0 0
      = (((10 : Nat) - 0 : Nat) : ℚ) / (((20 : Nat) - 0 : Nat) : ℚ) * 100 ∧
    controllerUtilizationPct 10 0 0 0 = 0 :=
  ⟨(controllerUtilization_spec 10 20 0 0).2 (by decide) (by decide),
   (controllerUtilization_spec 10 0 0 0).1 (Or.inl rfl)⟩

end MongoCore
